import Mathlib

/-!
# SnapTrace media-upload backend: job-lifecycle verification

A shallow embedding of the in-process job lifecycle of the SnapTrace example
backend (`backend/src/processor.ts` and `backend/src/server.ts`): the
in-memory job store, the job factory `createJob`, the asynchronous processing
pipeline `processMedia`, and the upload/status HTTP handlers.

Nondeterministic runtime inputs (`Date.now()`, `Math.random()` draws, timer
durations, and whether an exception interrupts the simulated work) are passed
explicitly as environment records; `Math.random()` results are modelled as
rationals in `[0, 1)`.  Each `jobs.set` call of the source is one
whole-record write to the store, so the list of written records is exactly
the sequence of states a poller of the Job Store can observe for one job.
-/

namespace SnapTrace

/-- The `status` field of a `ProcessingJob`:
`'pending' | 'processing' | 'completed' | 'failed'`. -/
inductive Status where
  | pending
  | processing
  | completed
  | failed
deriving DecidableEq

/-- The optional `result` record stored on a job once it is terminal:
`{optimized, thumbnailCreated, sizeSaved?, error?}`. -/
structure JobResult where
  optimized : Bool
  thumbnailCreated : Bool
  sizeSaved : Option Int := none
  error : Option String := none
deriving DecidableEq

/-- A job record (`ProcessingJob` in the source).  Timestamps are naturals
(milliseconds since the epoch); `fileSize` is a JavaScript number holding a
byte count, modelled as an integer. -/
structure ProcessingJob where
  id : String
  fileName : String
  fileType : String
  fileSize : Int
  status : Status
  createdAt : Nat
  completedAt : Option Nat := none
  result : Option JobResult := none
deriving DecidableEq

/-- The in-memory store `const jobs = new Map<string, ProcessingJob>()`,
modelled as an association list in first-insertion order. -/
abbrev Store := List (String × ProcessingJob)

/-- `jobs.set(key, v)` on a JavaScript `Map`: overwrite the entry for `key`
in place if present, else append a new entry. -/
def Store.set : Store → String → ProcessingJob → Store
  | [], key, v => [(key, v)]
  | (k, w) :: rest, key, v =>
      if k = key then (key, v) :: rest else (k, w) :: Store.set rest key v

/-- `jobs.get(key)` on a JavaScript `Map`: the value stored under `key`,
or `undefined`. -/
def Store.get : Store → String → Option ProcessingJob
  | [], _ => none
  | (k, w) :: rest, key => if k = key then some w else Store.get rest key

/-- `getJob(id)`: returns the current record for `id`, or an absent signal
(`undefined`); a total function, so it never throws for an unknown id. -/
def getJob (store : Store) (id : String) : Option ProcessingJob :=
  Store.get store id

/-- The runtime inputs one `createJob` call consumes: `Date.now()` and the
result of `Math.random().toString(36).substr(2, 9)` (a string of base-36
digit characters, possibly shorter than 9 characters). -/
structure CreateEnv where
  now : Nat
  randSuffix : String

/-- The id expression of `createJob`:
`Date.now().toString() + '-' + Math.random().toString(36).substr(2, 9)`. -/
def createJobId (e : CreateEnv) : String :=
  Nat.repr e.now ++ "-" ++ e.randSuffix

/-- The record literal that `createJob` builds: `status = 'pending'`,
`createdAt = new Date()`, `completedAt` and `result` unset. -/
def newJob (fileName fileType : String) (fileSize : Int) (e : CreateEnv) :
    ProcessingJob :=
  { id := createJobId e
    fileName := fileName
    fileType := fileType
    fileSize := fileSize
    status := .pending
    createdAt := e.now }

/-- `createJob(fileName, fileType, fileSize)`: builds the pending record,
stores it under its id (`jobs.set(job.id, job)`) and returns it. -/
def createJob (fileName fileType : String) (fileSize : Int) (e : CreateEnv)
    (store : Store) : ProcessingJob × Store :=
  let job := newJob fileName fileType fileSize e
  (job, Store.set store job.id job)

/-- The runtime inputs one `processMedia` run consumes.  `fault = some msg`
means an exception whose extracted message is `msg` interrupts the work
inside the `try` block, after `faultAfterDelays` of the simulated delays
have completed; `fault = none` is the normal path.  `sizeRand` and
`thumbRand` are the two `Math.random()` draws of the outcome computation,
`finishedAt` the `new Date()` of the terminal write. -/
structure PipelineEnv where
  optimizeDelay : Nat
  thumbnailDelay : Nat
  sizeRand : ℚ
  thumbRand : ℚ
  finishedAt : Nat
  fault : Option String := none
  faultAfterDelays : Nat := 0

/-- `t.startsWith(p)` of the JavaScript runtime: is `p` a prefix of `t`?
Stated over the underlying character data so that it evaluates. -/
def startsWith (t p : String) : Bool :=
  p.data.isPrefixOf t.data

/-- The first write of `processMedia`: `job.status = 'processing'` followed
by `jobs.set(job.id, job)`, before the span body runs. -/
def processingJob (job : ProcessingJob) : ProcessingJob :=
  { job with status := .processing }

/-- `Math.floor(job.fileSize * (0.2 + Math.random() * 0.3))` with `u` the
`Math.random()` draw. -/
def sizeSavedOf (fileSize : Int) (u : ℚ) : Int :=
  ⌊(fileSize : ℚ) * (1/5 + u * (3/10))⌋

/-- The terminal record of the success path: `status = 'completed'`,
`completedAt = new Date()`,
`result = {optimized: true, thumbnailCreated, sizeSaved}` where
`thumbnailCreated = Math.random() > 0.05`. -/
def completedJob (job : ProcessingJob) (env : PipelineEnv) : ProcessingJob :=
  { job with
    status := .completed
    completedAt := some env.finishedAt
    result := some
      { optimized := true
        thumbnailCreated := decide (env.thumbRand > 1/20)
        sizeSaved := some (sizeSavedOf job.fileSize env.sizeRand) } }

/-- The terminal record of the catch path: `status = 'failed'`,
`completedAt = new Date()`,
`result = {optimized: false, thumbnailCreated: false, error: message}`. -/
def failedJob (job : ProcessingJob) (env : PipelineEnv) (msg : String) :
    ProcessingJob :=
  { job with
    status := .failed
    completedAt := some env.finishedAt
    result := some
      { optimized := false, thumbnailCreated := false, error := some msg } }

/-- The record the `finally` block stores: the catch path's record if an
exception was raised during the simulated work, the success path's
otherwise. -/
def finalJob (job : ProcessingJob) (env : PipelineEnv) : ProcessingJob :=
  match env.fault with
  | some msg => failedJob (processingJob job) env msg
  | none => completedJob (processingJob job) env

/-- The whole-record states `processMedia` writes to the store, in order:
the `processing` write before the span, then the terminal write that the
`finally` block performs on every exit path. -/
def processMediaWrites (job : ProcessingJob) (env : PipelineEnv) :
    List ProcessingJob :=
  [processingJob job, finalJob job env]

/-- `processMedia` as a store transformer: applies its two `jobs.set` calls
in order. -/
def processMedia (job : ProcessingJob) (env : PipelineEnv) (store : Store) :
    Store :=
  (processMediaWrites job env).foldl (fun s j => Store.set s j.id j) store

/-- The successive whole-record states stored under one id for a job that is
created by `createJob` and then processed by `processMedia`: exactly what a
poller of the Job Store can observe for that id, in order. -/
def jobSnapshots (fileName fileType : String) (fileSize : Int)
    (e : CreateEnv) (penv : PipelineEnv) : List ProcessingJob :=
  let job := newJob fileName fileType fileSize e
  job :: processMediaWrites job penv

/-- Responses of `POST /api/upload`. -/
inductive UploadResponse where
  | badRequest (error : String)
  | ok (jobId : String) (status message : String)
  | serverError (error : String)
deriving DecidableEq

/-- The request body `{fileName, fileType, fileSize}`; any field can be
absent from the JSON. -/
structure UploadBody where
  fileName : Option String := none
  fileType : Option String := none
  fileSize : Option Int := none
deriving DecidableEq

/-- JavaScript truthiness of an optional string: `undefined` and `''` are
falsy, every other string truthy. -/
def truthyString : Option String → Bool
  | none => false
  | some s => !(s == "")

/-- JavaScript truthiness of an optional number: `undefined` and `0` are
falsy, every other integer truthy. -/
def truthyNumber : Option Int → Bool
  | none => false
  | some n => !(n == 0)

/-- The `POST /api/upload` handler: the three validation checks in source
order, then `createJob` and one `processMedia` call handed to
`setImmediate`.  Returns the response, the store after the synchronous part
of the request, and the list of jobs scheduled for asynchronous
processing. -/
def uploadHandler (body : UploadBody) (e : CreateEnv) (store : Store) :
    UploadResponse × Store × List ProcessingJob :=
  if !truthyString body.fileName || !truthyString body.fileType
      || !truthyNumber body.fileSize then
    (.badRequest "Missing required fields", store, [])
  else
    let fileType := body.fileType.getD ""
    let fileSize := body.fileSize.getD 0
    if fileSize > 50 * 1024 * 1024 then
      (.badRequest "File too large (max 50MB)", store, [])
    else if !startsWith fileType "image/" then
      (.badRequest "Only images are supported", store, [])
    else
      let (job, store1) := createJob (body.fileName.getD "") fileType fileSize e store
      (.ok job.id "accepted" "Upload received and processing started", store1, [job])

/-- Do all three validation checks of the upload handler accept the body? -/
def validationPasses (body : UploadBody) : Bool :=
  truthyString body.fileName && truthyString body.fileType
    && truthyNumber body.fileSize
    && !(decide (body.fileSize.getD 0 > 50 * 1024 * 1024))
    && startsWith (body.fileType.getD "") "image/"

/-- Responses of `GET /api/status/:jobId`. -/
inductive StatusResponse where
  | notFound (error : String)
  | ok (jobId : String) (status : Status) (fileName : String) (fileSize : Int)
      (createdAt : Nat) (completedAt : Option Nat) (result : Option JobResult)
deriving DecidableEq

/-- The `GET /api/status/:jobId` handler: one `getJob` lookup, a 404 body
when it is absent, otherwise the job's fields; returns the response together
with the store it leaves behind. -/
def statusHandler (store : Store) (jobId : String) : StatusResponse × Store :=
  match getJob store jobId with
  | none => (.notFound "Job not found", store)
  | some job =>
      (.ok job.id job.status job.fileName job.fileSize job.createdAt
        job.completedAt job.result, store)

/-- Observable events of one upload request and its scheduled pipeline
run: store writes, simulated-delay suspensions, and the HTTP response. -/
inductive Event where
  | write (job : ProcessingJob)
  | delay (ms : Nat)
  | respond (r : UploadResponse)
deriving DecidableEq

/-- Is the event a simulated-delay suspension? -/
def Event.isDelay : Event → Bool
  | .delay _ => true
  | _ => false

/-- The delays `processMedia` actually awaits: both configured delays for an
image on the normal path, the prefix completed before the exception on the
fault path, and none for a non-image file. -/
def pipelineDelays (job : ProcessingJob) (env : PipelineEnv) : List Nat :=
  if startsWith job.fileType "image/" then
    match env.fault with
    | some _ => List.take env.faultAfterDelays [env.optimizeDelay, env.thumbnailDelay]
    | none => [env.optimizeDelay, env.thumbnailDelay]
  else []

/-- The event trace of one `processMedia` run: the `processing` write, the
awaited delays, then the terminal write from the `finally` block. -/
def pipelineTrace (job : ProcessingJob) (env : PipelineEnv) : List Event :=
  Event.write (processingJob job)
    :: (pipelineDelays job env).map Event.delay ++ [Event.write (finalJob job env)]

/-- The event trace of one `POST /api/upload` request: the handler's own
store write(s) and its response, then — because `setImmediate` runs its
callback only after the current task, hence after `res.json` — the traces of
the scheduled pipeline runs. -/
def systemTrace (body : UploadBody) (e : CreateEnv) (penv : PipelineEnv)
    (store : Store) : List Event :=
  let (resp, _, scheduled) := uploadHandler body e store
  scheduled.map Event.write ++ [Event.respond resp]
    ++ (scheduled.map (fun j => pipelineTrace j penv)).flatten

/-- The upload response as §4.4 and §6 of the spec word it: all three fields
present and truthy, else "Missing required fields"; `fileSize` at most
50 MiB, else "File too large (max 50MB)"; `fileType` beginning with
`image/`, else "Only images are supported"; otherwise accepted with the id
of the job just created. -/
def specUploadResponse (body : UploadBody) (jobId : String) : UploadResponse :=
  if body.fileName = none || body.fileName = some "" || body.fileType = none
      || body.fileType = some "" || body.fileSize = none
      || body.fileSize = some 0 then
    .badRequest "Missing required fields"
  else if body.fileSize.getD 0 > 50 * 1024 * 1024 then
    .badRequest "File too large (max 50MB)"
  else if !startsWith (body.fileType.getD "") "image/" then
    .badRequest "Only images are supported"
  else
    .ok jobId "accepted" "Upload received and processing started"

/-- Decimal digit list of a natural number, most significant digit first;
the reference rendering that `Nat.repr` is proved below to produce. -/
def decDigits (n : Nat) : List Char :=
  if _h : n < 10 then [Nat.digitChar n]
  else decDigits (n / 10) ++ [Nat.digitChar (n % 10)]
decreasing_by exact Nat.div_lt_self (by omega) (by omega)

theorem Store.get_set_self (s : Store) (k : String) (v : ProcessingJob) :
    Store.get (Store.set s k v) k = some v := by
  induction s with
  | nil => simp [Store.set, Store.get]
  | cons hd tl ih =>
      obtain ⟨k', w⟩ := hd
      by_cases h : k' = k <;> simp [Store.set, Store.get, h, ih]

theorem Store.length_set_of_get_none (s : Store) (k : String)
    (v : ProcessingJob) (h : Store.get s k = none) :
    (Store.set s k v).length = s.length + 1 := by
  induction s with
  | nil => simp [Store.set]
  | cons hd tl ih =>
      obtain ⟨k', w⟩ := hd
      by_cases hk : k' = k
      · simp [Store.get, hk] at h
      · simp only [Store.get, hk, if_false] at h
        simp [Store.set, hk, ih h]

/-- C1: a job created by `createJob` and processed by `processMedia` is
stored, in order, in exactly the states pending, processing, terminal — the
terminal one being completed or failed — so its status never regresses and
never reaches a terminal state without having been processing first. -/
theorem status_trace_monotone (fileName fileType : String) (fileSize : Int)
    (e : CreateEnv) (penv : PipelineEnv) :
    (jobSnapshots fileName fileType fileSize e penv).map ProcessingJob.status
        = [Status.pending, Status.processing, Status.completed]
      ∨ (jobSnapshots fileName fileType fileSize e penv).map ProcessingJob.status
        = [Status.pending, Status.processing, Status.failed] := by
  cases h : penv.fault with
  | none =>
      left
      simp [jobSnapshots, processMediaWrites, finalJob, h, processingJob,
        completedJob, newJob]
  | some msg =>
      right
      simp [jobSnapshots, processMediaWrites, finalJob, h, processingJob,
        failedJob, newJob]

/-- C2: in every state stored for a job created by `createJob` and processed
by `processMedia`, `completedAt` is set exactly when the status is completed
or failed, and `result` is set exactly when `completedAt` is: both are
absent while pending or processing, and the terminal write sets status,
`completedAt` and `result` together. -/
theorem completedAt_iff_terminal (fileName fileType : String) (fileSize : Int)
    (e : CreateEnv) (penv : PipelineEnv) (s : ProcessingJob)
    (hs : s ∈ jobSnapshots fileName fileType fileSize e penv) :
    (s.completedAt.isSome ↔ (s.status = .completed ∨ s.status = .failed))
      ∧ (s.result.isSome ↔ s.completedAt.isSome) := by
  simp only [jobSnapshots, processMediaWrites, List.mem_cons,
    List.mem_singleton, List.not_mem_nil, or_false] at hs
  rcases hs with h | h | h
  · subst h; simp [newJob]
  · subst h; simp [processingJob, newJob]
  · subst h
    cases hf : penv.fault with
    | none => simp [finalJob, hf, completedJob, processingJob, newJob]
    | some msg => simp [finalJob, hf, failedJob, processingJob, newJob]

/-- C2 witness: the property instantiated at the pending snapshot of a
concrete job. -/
theorem completedAt_iff_terminal_witness :
    ((newJob "a.jpg" "image/jpeg" 1048576 ⟨1700000000000, "abc123def"⟩).completedAt.isSome
        ↔ ((newJob "a.jpg" "image/jpeg" 1048576 ⟨1700000000000, "abc123def"⟩).status = .completed
          ∨ (newJob "a.jpg" "image/jpeg" 1048576 ⟨1700000000000, "abc123def"⟩).status = .failed))
      ∧ ((newJob "a.jpg" "image/jpeg" 1048576 ⟨1700000000000, "abc123def"⟩).result.isSome
        ↔ (newJob "a.jpg" "image/jpeg" 1048576 ⟨1700000000000, "abc123def"⟩).completedAt.isSome) :=
  completedAt_iff_terminal "a.jpg" "image/jpeg" 1048576 ⟨1700000000000, "abc123def"⟩
    ⟨500, 300, 0, 1, 1700000000999, none, 0⟩ _
    (by simp [jobSnapshots, processMediaWrites])

/-- C5: on every exit path `processMedia`'s `finally` block stores a
terminal record for the job's id, and when an exception with message `msg`
interrupts the simulated work the stored record has status failed,
`completedAt` set, and
`result = {optimized: false, thumbnailCreated: false, error: msg}`. -/
theorem processMedia_finalizes (job : ProcessingJob) (penv : PipelineEnv)
    (store : Store) :
    getJob (processMedia job penv store) job.id = some (finalJob job penv)
      ∧ ((finalJob job penv).status = .completed
          ∨ (finalJob job penv).status = .failed)
      ∧ (∀ msg, penv.fault = some msg →
          (finalJob job penv).status = .failed
            ∧ (finalJob job penv).completedAt = some penv.finishedAt
            ∧ (finalJob job penv).result = some
                { optimized := false, thumbnailCreated := false,
                  sizeSaved := none, error := some msg }) := by
  have h2 : (finalJob job penv).id = job.id := by
    cases hf : penv.fault <;>
      simp [finalJob, hf, failedJob, completedJob, processingJob]
  refine ⟨?_, ?_, ?_⟩
  · simp only [processMedia, processMediaWrites, List.foldl_cons,
      List.foldl_nil, getJob]
    rw [h2]
    exact Store.get_set_self _ _ _
  · cases hf : penv.fault with
    | none => exact Or.inl (by simp [finalJob, hf, completedJob])
    | some msg => exact Or.inr (by simp [finalJob, hf, failedJob])
  · intro msg hf
    simp [finalJob, hf, failedJob]

/-- C5 witness: a concrete faulting run is finalized with the failed
record. -/
theorem processMedia_finalizes_witness :
    (finalJob (newJob "a.jpg" "image/jpeg" 7 ⟨3, "zz"⟩)
        ⟨500, 300, 0, 1, 9, some "boom", 1⟩).status = Status.failed
      ∧ (finalJob (newJob "a.jpg" "image/jpeg" 7 ⟨3, "zz"⟩)
          ⟨500, 300, 0, 1, 9, some "boom", 1⟩).completedAt = some 9
      ∧ (finalJob (newJob "a.jpg" "image/jpeg" 7 ⟨3, "zz"⟩)
          ⟨500, 300, 0, 1, 9, some "boom", 1⟩).result = some
            { optimized := false, thumbnailCreated := false,
              sizeSaved := none, error := some "boom" } :=
  (processMedia_finalizes (newJob "a.jpg" "image/jpeg" 7 ⟨3, "zz"⟩)
    ⟨500, 300, 0, 1, 9, some "boom", 1⟩ []).2.2 "boom" rfl

/-- C7: the status endpoint answers 404 "Job not found" exactly when
`getJob` reports the id absent; for an existing job — pending included — it
answers with the job's fields, which is never the 404 response; and the
query leaves the store unchanged. -/
theorem status_query_spec (store : Store) (id : String) :
    ((statusHandler store id).1 = .notFound "Job not found"
        ↔ getJob store id = none)
      ∧ (∀ job, getJob store id = some job →
          (statusHandler store id).1 = .ok job.id job.status job.fileName
              job.fileSize job.createdAt job.completedAt job.result
            ∧ (statusHandler store id).1 ≠ .notFound "Job not found")
      ∧ (statusHandler store id).2 = store := by
  cases h : getJob store id with
  | none => simp [statusHandler, h]
  | some job => simp [statusHandler, h]

/-- C7 witness: a store holding one pending job answers with that job's
fields, not with the 404 body. -/
theorem status_query_spec_witness :
    (statusHandler [("j1", ⟨"j1", "a.jpg", "image/jpeg", 5, .pending, 0, none, none⟩)] "j1").1
        = StatusResponse.ok "j1" .pending "a.jpg" 5 0 none none
      ∧ (statusHandler [("j1", ⟨"j1", "a.jpg", "image/jpeg", 5, .pending, 0, none, none⟩)] "j1").1
        ≠ .notFound "Job not found" :=
  (status_query_spec [("j1", ⟨"j1", "a.jpg", "image/jpeg", 5, .pending, 0, none, none⟩)] "j1").2.1
    _ rfl

/-- C10: a request whose three fields are all present but where `fileSize`
is 0, or `fileName` or `fileType` is the empty string, fails the truthiness
check: the handler answers 400 "Missing required fields", leaves the store
unchanged and schedules nothing, so a zero-byte file is never accepted. -/
theorem falsy_fields_rejected (name ty : String) (n : Int) (e : CreateEnv)
    (store : Store) :
    uploadHandler ⟨some name, some ty, some 0⟩ e store
        = (.badRequest "Missing required fields", store, [])
      ∧ uploadHandler ⟨some "", some ty, some n⟩ e store
        = (.badRequest "Missing required fields", store, [])
      ∧ uploadHandler ⟨some name, some "", some n⟩ e store
        = (.badRequest "Missing required fields", store, []) := by
  refine ⟨?_, ?_, ?_⟩ <;> simp [uploadHandler, truthyString, truthyNumber]

/-- C3: the upload handler's response is exactly the three-check
short-circuit decision described by the spec — missing-or-falsy fields, then
the 50 MiB ceiling, then the image/ prefix — answering accepted with the id
of the job just created. -/
theorem upload_validation_chain (body : UploadBody) (e : CreateEnv)
    (store : Store) :
    (uploadHandler body e store).1 = specUploadResponse body (createJobId e) := by
  obtain ⟨fn, ft, fs⟩ := body
  cases fn <;> cases ft <;> cases fs <;>
    simp only [uploadHandler, specUploadResponse, truthyString, truthyNumber,
      createJob, newJob, Option.getD_some, Option.getD_none] <;>
    split_ifs <;> simp_all [createJobId]

/-- C4: a failed validation leaves the store unchanged and schedules
nothing; a passed validation inserts exactly the one created job and
schedules exactly one pipeline run for it, and the insertion grows the store
by one entry when the generated id is fresh. -/
theorem upload_side_effects (body : UploadBody) (e : CreateEnv)
    (store : Store) :
    ((uploadHandler body e store).2.1
        = if validationPasses body then
            Store.set store (createJobId e)
              (newJob (body.fileName.getD "") (body.fileType.getD "")
                (body.fileSize.getD 0) e)
          else store)
      ∧ ((uploadHandler body e store).2.2
        = if validationPasses body then
            [newJob (body.fileName.getD "") (body.fileType.getD "")
              (body.fileSize.getD 0) e]
          else [])
      ∧ (validationPasses body = true →
          Store.get store (createJobId e) = none →
          (uploadHandler body e store).2.1.length = store.length + 1) := by
  have hstore : (uploadHandler body e store).2.1
      = if validationPasses body then
          Store.set store (createJobId e)
            (newJob (body.fileName.getD "") (body.fileType.getD "")
              (body.fileSize.getD 0) e)
        else store := by
    simp only [uploadHandler, validationPasses, createJob, newJob]
    split_ifs <;> simp_all [createJobId]
  have hsched : (uploadHandler body e store).2.2
      = if validationPasses body then
          [newJob (body.fileName.getD "") (body.fileType.getD "")
            (body.fileSize.getD 0) e]
        else [] := by
    simp only [uploadHandler, validationPasses, createJob, newJob]
    split_ifs <;> simp_all [createJobId]
  refine ⟨hstore, hsched, ?_⟩
  intro hv hfresh
  rw [hstore]
  simp only [hv, if_true]
  exact Store.length_set_of_get_none _ _ _ hfresh

/-- C4 witness: on a concrete valid request over the empty store, exactly
one job is scheduled and the store grows from zero to one entry. -/
theorem upload_side_effects_witness :
    validationPasses ⟨some "a.jpg", some "image/jpeg", some 1024⟩ = true
      ∧ (uploadHandler ⟨some "a.jpg", some "image/jpeg", some 1024⟩
          ⟨7, "abc"⟩ []).2.1.length = List.length ([] : Store) + 1 :=
  ⟨by decide,
    (upload_side_effects ⟨some "a.jpg", some "image/jpeg", some 1024⟩
      ⟨7, "abc"⟩ []).2.2 (by decide) rfl⟩

/-- C9: in the event trace of one upload request, the HTTP response comes
before every simulated delay of the scheduled pipeline run: `setImmediate`
defers `processMedia` past the current task, so the events preceding the
response contain no delay. -/
theorem respond_before_delays (body : UploadBody) (e : CreateEnv)
    (penv : PipelineEnv) (store : Store) :
    ∃ pre post,
      systemTrace body e penv store
          = pre ++ Event.respond (uploadHandler body e store).1 :: post
        ∧ ∀ ev ∈ pre, ev.isDelay = false := by
  refine ⟨(uploadHandler body e store).2.2.map Event.write,
    ((uploadHandler body e store).2.2.map (fun j => pipelineTrace j penv)).flatten,
    ?_, ?_⟩
  · rcases h : uploadHandler body e store with ⟨resp, st, sched⟩
    simp [systemTrace, h]
  · intro ev hev
    simp only [List.mem_map] at hev
    obtain ⟨j, _, rfl⟩ := hev
    rfl

/-- C9 witness: the property instantiated at a concrete valid upload over
the empty store. -/
theorem respond_before_delays_witness :
    ∃ pre post,
      systemTrace ⟨some "a.jpg", some "image/jpeg", some 1024⟩ ⟨7, "abc"⟩
          ⟨500, 300, 0, 1, 9, none, 0⟩ []
          = pre ++ Event.respond (uploadHandler
              ⟨some "a.jpg", some "image/jpeg", some 1024⟩ ⟨7, "abc"⟩ []).1 :: post
        ∧ ∀ ev ∈ pre, ev.isDelay = false :=
  respond_before_delays ⟨some "a.jpg", some "image/jpeg", some 1024⟩ ⟨7, "abc"⟩
    ⟨500, 300, 0, 1, 9, none, 0⟩ []

/-- C6 (amended): a successful `processMedia` run completes the job with
`result.sizeSaved = floor(fileSize * r)` for a ratio `r` in `[0.2, 0.5)`;
for a nonnegative `fileSize` this forces
`0.2 * fileSize - 1 < sizeSaved ≤ 0.5 * fileSize` — flooring can push
`sizeSaved` strictly below `0.2 * fileSize` itself — and
`sizeSaved ≤ fileSize`. -/
theorem sizeSaved_bounds (job : ProcessingJob) (penv : PipelineEnv)
    (hfault : penv.fault = none) (h0 : 0 ≤ penv.sizeRand)
    (h1 : penv.sizeRand < 1) (hfs : 0 ≤ job.fileSize) :
    (finalJob job penv).status = .completed
      ∧ ((finalJob job penv).result.map JobResult.optimized) = some true
      ∧ ((finalJob job penv).result.bind JobResult.sizeSaved)
        = some (sizeSavedOf job.fileSize penv.sizeRand)
      ∧ (∃ r : ℚ, 1/5 ≤ r ∧ r < 1/2
          ∧ sizeSavedOf job.fileSize penv.sizeRand = ⌊(job.fileSize : ℚ) * r⌋)
      ∧ (job.fileSize : ℚ) * (1/5) - 1
        < ((sizeSavedOf job.fileSize penv.sizeRand : Int) : ℚ)
      ∧ ((sizeSavedOf job.fileSize penv.sizeRand : Int) : ℚ)
        ≤ (job.fileSize : ℚ) * (1/2)
      ∧ sizeSavedOf job.fileSize penv.sizeRand ≤ job.fileSize := by
  have hr1 : (1/5 : ℚ) ≤ 1/5 + penv.sizeRand * (3/10) := by nlinarith
  have hr2 : 1/5 + penv.sizeRand * (3/10) < 1/2 := by nlinarith
  have hfsQ : (0 : ℚ) ≤ (job.fileSize : ℚ) := by exact_mod_cast hfs
  have hlow : (job.fileSize : ℚ) * (1/5)
      ≤ (job.fileSize : ℚ) * (1/5 + penv.sizeRand * (3/10)) := by nlinarith
  have hhigh : (job.fileSize : ℚ) * (1/5 + penv.sizeRand * (3/10))
      ≤ (job.fileSize : ℚ) * (1/2) := by nlinarith
  have hfloor_lt :=
    Int.sub_one_lt_floor ((job.fileSize : ℚ) * (1/5 + penv.sizeRand * (3/10)))
  have hfloor_le :=
    Int.floor_le ((job.fileSize : ℚ) * (1/5 + penv.sizeRand * (3/10)))
  refine ⟨by simp [finalJob, hfault, completedJob, processingJob],
    by simp [finalJob, hfault, completedJob, processingJob],
    by simp [finalJob, hfault, completedJob, processingJob],
    ⟨1/5 + penv.sizeRand * (3/10), hr1, hr2, rfl⟩, ?_, ?_, ?_⟩
  · show (job.fileSize : ℚ) * (1/5) - 1
        < ((⌊(job.fileSize : ℚ) * (1/5 + penv.sizeRand * (3/10))⌋ : Int) : ℚ)
    linarith
  · show ((⌊(job.fileSize : ℚ) * (1/5 + penv.sizeRand * (3/10))⌋ : Int) : ℚ)
        ≤ (job.fileSize : ℚ) * (1/2)
    linarith
  · have : ((⌊(job.fileSize : ℚ) * (1/5 + penv.sizeRand * (3/10))⌋ : Int) : ℚ)
        ≤ (job.fileSize : ℚ) := by nlinarith
    exact_mod_cast this

/-- C6 witness: the bounds instantiated at a concrete completed job with
`fileSize = 10` and random draw `1/2` (so `sizeSaved = 3`). -/
theorem sizeSaved_bounds_witness :
    ((10 : Int) : ℚ) * (1/5) - 1 < ((sizeSavedOf 10 (1/2) : Int) : ℚ)
      ∧ ((sizeSavedOf 10 (1/2) : Int) : ℚ) ≤ ((10 : Int) : ℚ) * (1/2) :=
  ⟨(sizeSaved_bounds (newJob "a.jpg" "image/jpeg" 10 ⟨0, "x"⟩)
      ⟨500, 300, 1/2, 1, 99, none, 0⟩ rfl (by norm_num) (by norm_num)
      (by decide)).2.2.2.2.1,
    (sizeSaved_bounds (newJob "a.jpg" "image/jpeg" 10 ⟨0, "x"⟩)
      ⟨500, 300, 1/2, 1, 99, none, 0⟩ rfl (by norm_num) (by norm_num)
      (by decide)).2.2.2.2.2.1⟩

/-- C6 counterexample: at `fileSize = 1` with random draw 0 the pipeline
completes the job successfully — `optimized = true`, `sizeSaved = 0` — yet
`0.2 * fileSize ≤ sizeSaved` is false: flooring breaks the claimed lower
bound. -/
theorem sizeSaved_lower_bound_fails :
    (finalJob (newJob "a.jpg" "image/jpeg" 1 ⟨0, "x"⟩)
        ⟨500, 300, 0, 1, 9, none, 0⟩).status = Status.completed
      ∧ (finalJob (newJob "a.jpg" "image/jpeg" 1 ⟨0, "x"⟩)
          ⟨500, 300, 0, 1, 9, none, 0⟩).result
        = some ⟨true, true, some 0, none⟩
      ∧ ¬((1/5 : ℚ) * ((1 : Int) : ℚ) ≤ ((0 : Int) : ℚ)) := by
  have hss : sizeSavedOf 1 0 = 0 := by
    rw [sizeSavedOf, Int.floor_eq_iff]; norm_num
  refine ⟨rfl, ?_, by norm_num⟩
  simp [finalJob, completedJob, newJob, processingJob, hss]
  norm_num

theorem digitChar_ne_dash (n : Nat) : Nat.digitChar n ≠ '-' := by
  by_cases h : n < 16
  · interval_cases n <;> decide
  · unfold Nat.digitChar
    rw [if_neg (show ¬n = 0 by omega), if_neg (show ¬n = 1 by omega),
      if_neg (show ¬n = 2 by omega), if_neg (show ¬n = 3 by omega),
      if_neg (show ¬n = 4 by omega), if_neg (show ¬n = 5 by omega),
      if_neg (show ¬n = 6 by omega), if_neg (show ¬n = 7 by omega),
      if_neg (show ¬n = 8 by omega), if_neg (show ¬n = 9 by omega),
      if_neg (show ¬n = 10 by omega), if_neg (show ¬n = 11 by omega),
      if_neg (show ¬n = 12 by omega), if_neg (show ¬n = 13 by omega),
      if_neg (show ¬n = 14 by omega), if_neg (show ¬n = 15 by omega)]
    decide

theorem decDigits_small {n : Nat} (h : n < 10) :
    decDigits n = [Nat.digitChar n] := by
  rw [decDigits]
  exact dif_pos h

theorem decDigits_large {n : Nat} (h : ¬n < 10) :
    decDigits n = decDigits (n / 10) ++ [Nat.digitChar (n % 10)] := by
  rw [decDigits]
  exact dif_neg h

theorem decDigits_ne_nil (n : Nat) : decDigits n ≠ [] := by
  by_cases h : n < 10
  · rw [decDigits_small h]; simp
  · rw [decDigits_large h]; simp

theorem decDigits_ne_dash (n : Nat) : '-' ∉ decDigits n := by
  induction n using Nat.strong_induction_on with
  | _ n ih =>
      by_cases h : n < 10
      · rw [decDigits_small h]
        intro hmem
        exact digitChar_ne_dash n (List.mem_singleton.mp hmem).symm
      · rw [decDigits_large h]
        intro hmem
        rcases List.mem_append.mp hmem with hm | hm
        · exact ih (n / 10) (Nat.div_lt_self (by omega) (by omega)) hm
        · exact digitChar_ne_dash (n % 10) (List.mem_singleton.mp hm).symm

theorem toDigitsCore_eq_decDigits :
    ∀ (fuel n : Nat) (ds : List Char), n < fuel →
      Nat.toDigitsCore 10 fuel n ds = decDigits n ++ ds := by
  intro fuel
  induction fuel with
  | zero => intro n ds h; omega
  | succ fuel ih =>
      intro n ds h
      by_cases h10 : n / 10 = 0
      · have hn : n < 10 := by omega
        rw [decDigits_small hn]
        simp only [Nat.toDigitsCore, h10, if_true]
        rw [Nat.mod_eq_of_lt hn]
        rfl
      · have hn : ¬n < 10 := by omega
        have hlt : n / 10 < fuel := by omega
        rw [decDigits_large hn]
        simp only [Nat.toDigitsCore, h10, if_false]
        rw [ih (n / 10) (Nat.digitChar (n % 10) :: ds) hlt]
        simp

theorem repr_eq_decDigits (n : Nat) : Nat.repr n = (decDigits n).asString := by
  show (Nat.toDigitsCore 10 (n + 1) n []).asString = (decDigits n).asString
  rw [toDigitsCore_eq_decDigits (n + 1) n [] (Nat.lt_succ_self n)]
  simp

theorem digitChar_inj_below_ten :
    ∀ a < 10, ∀ b < 10, Nat.digitChar a = Nat.digitChar b → a = b := by
  decide

theorem decDigits_injective : ∀ m n : Nat, decDigits m = decDigits n → m = n := by
  intro m
  induction m using Nat.strong_induction_on with
  | _ m ih =>
      intro n h
      by_cases hm : m < 10 <;> by_cases hn : n < 10
      · rw [decDigits_small hm, decDigits_small hn] at h
        exact digitChar_inj_below_ten m hm n hn (List.singleton_injective h)
      · rw [decDigits_small hm, decDigits_large hn] at h
        have hlen := congrArg List.length h
        simp only [List.length_singleton, List.length_append, List.length_cons,
          List.length_nil] at hlen
        have : decDigits (n / 10) = [] :=
          List.eq_nil_of_length_eq_zero (by omega)
        exact absurd this (decDigits_ne_nil _)
      · rw [decDigits_large hm, decDigits_small hn] at h
        have hlen := congrArg List.length h
        simp only [List.length_singleton, List.length_append, List.length_cons,
          List.length_nil] at hlen
        have : decDigits (m / 10) = [] :=
          List.eq_nil_of_length_eq_zero (by omega)
        exact absurd this (decDigits_ne_nil _)
      · rw [decDigits_large hm, decDigits_large hn] at h
        obtain ⟨h1, h2⟩ := List.append_inj' h rfl
        have hdiv : m / 10 = n / 10 :=
          ih (m / 10) (Nat.div_lt_self (by omega) (by omega)) (n / 10) h1
        have hmod : m % 10 = n % 10 :=
          digitChar_inj_below_ten (m % 10) (Nat.mod_lt m (by omega)) (n % 10)
            (Nat.mod_lt n (by omega)) (List.singleton_injective h2)
        omega

theorem repr_injective {m n : Nat} (h : Nat.repr m = Nat.repr n) : m = n := by
  rw [repr_eq_decDigits, repr_eq_decDigits] at h
  exact decDigits_injective m n (congrArg String.data h)

theorem repr_ne_dash (n : Nat) : '-' ∉ (Nat.repr n).data := by
  rw [repr_eq_decDigits]
  exact decDigits_ne_dash n

theorem string_data_inj {s t : String} (h : s.data = t.data) : s = t := by
  cases s
  cases t
  exact congrArg String.mk h

theorem string_data_append (s t : String) : (s ++ t).data = s.data ++ t.data := by
  cases s
  cases t
  rfl

theorem append_dash_inj :
    ∀ l₁ l₂ m₁ m₂ : List Char, '-' ∉ l₁ → '-' ∉ l₂ →
      l₁ ++ '-' :: m₁ = l₂ ++ '-' :: m₂ → l₁ = l₂ ∧ m₁ = m₂ := by
  intro l₁
  induction l₁ with
  | nil =>
      intro l₂ m₁ m₂ h1 h2 h
      cases l₂ with
      | nil => simpa using h
      | cons c t =>
          simp only [List.nil_append, List.cons_append, List.cons.injEq] at h
          obtain ⟨hc, _⟩ := h
          cases hc
          exact absurd (List.mem_cons_self _ _) h2
  | cons a t ih =>
      intro l₂ m₁ m₂ h1 h2 h
      cases l₂ with
      | nil =>
          simp only [List.cons_append, List.nil_append, List.cons.injEq] at h
          obtain ⟨ha, _⟩ := h
          subst ha
          exact absurd (List.mem_cons_self _ _) h1
      | cons b u =>
          simp only [List.cons_append, List.cons.injEq] at h
          obtain ⟨hab, ht⟩ := h
          subst hab
          have h1' : '-' ∉ t := fun hm => h1 (List.mem_cons_of_mem _ hm)
          have h2' : '-' ∉ u := fun hm => h2 (List.mem_cons_of_mem _ hm)
          obtain ⟨e1, e2⟩ := ih u m₁ m₂ h1' h2' ht
          exact ⟨by rw [e1], e2⟩

/-- C8 (amended): ids from two `createJob` calls differ whenever the two
calls observe different `Date.now()` milliseconds or different random
suffixes; an id collision can occur only when a call pair repeats both, and
such a collision makes the second insert overwrite the first. -/
theorem createJobId_injective (e₁ e₂ : CreateEnv)
    (hne : e₁.now ≠ e₂.now ∨ e₁.randSuffix ≠ e₂.randSuffix) :
    createJobId e₁ ≠ createJobId e₂ := by
  intro h
  have hdata : (Nat.repr e₁.now).data ++ '-' :: e₁.randSuffix.data
      = (Nat.repr e₂.now).data ++ '-' :: e₂.randSuffix.data := by
    have hd := congrArg String.data h
    simpa [createJobId, string_data_append] using hd
  obtain ⟨ha, hb⟩ :=
    append_dash_inj _ _ _ _ (repr_ne_dash e₁.now) (repr_ne_dash e₂.now) hdata
  rcases hne with hnow | hsuffix
  · exact hnow (repr_injective (string_data_inj ha))
  · exact hsuffix (string_data_inj hb)

/-- C8 witness: ids of calls one millisecond apart with the same random
suffix differ. -/
theorem createJobId_injective_witness :
    createJobId ⟨1, "abc123def"⟩ ≠ createJobId ⟨2, "abc123def"⟩ :=
  createJobId_injective ⟨1, "abc123def"⟩ ⟨2, "abc123def"⟩ (Or.inl (by decide))

/-- C8 counterexample: two consecutive `createJob` calls that observe the
same millisecond (`Date.now() = 5`) and the same random draw return equal
ids, so the second insert overwrites the first: starting from an empty
store, after both calls the store holds a single entry, the second job's
record — refuting pairwise-distinct ids and no-overwrite. -/
theorem createJob_id_collision :
    (createJob "b.png" "image/png" 2 ⟨5, "abc"⟩
        (createJob "a.jpg" "image/jpeg" 1 ⟨5, "abc"⟩ []).2).2.length = 1
      ∧ Store.get (createJob "b.png" "image/png" 2 ⟨5, "abc"⟩
            (createJob "a.jpg" "image/jpeg" 1 ⟨5, "abc"⟩ []).2).2
          (createJobId ⟨5, "abc"⟩)
        = some (newJob "b.png" "image/png" 2 ⟨5, "abc"⟩) := by
  constructor
  · rfl
  · rfl

end SnapTrace
